import Mathlib

/-!
Shallow embedding of `libspec.py` (class `ASQESpectrometer`) from the
PVSensors/ASQESpectrometer repository, together with theorems settling the
frozen claims about it.

The native driver (`self.lib`) is modelled as a `Device` record holding the
status codes each primitive returns, the flash contents, the frame-count
values successive `getStatus` polls report, and the frame samples `getFrame`
delivers.  Side effects on the collaborator (trigger count, flash-read count,
status polls, sleeps, `getFrame` calls) are tracked in a `Trace` record.
Python floats are modelled as `ℚ`; `u8`/`u16` values as `Nat`.
-/

namespace ASQE

/-- Python half-open slice `l[a:b]` (clamping, never out of bounds). -/
def pySlice (l : List α) (a b : Nat) : List α :=
  (l.drop a).take (b - a)

/-- `np.mean` of a list of rationals (sum divided by length;
Lean's `q / 0 = 0` convention is irrelevant to the claims, which only take
means of nonempty slices). -/
def listMean (l : List ℚ) : ℚ :=
  l.sum / l.length

/-- `bytes.find(b"\xff\xff")` : index of the first occurrence of two
consecutive `0xFF` bytes, `none` when absent (Python returns `-1`). -/
def findMarker : List Nat → Option Nat
  | [] => none
  | [_] => none
  | a :: b :: rest =>
      if a = 255 ∧ b = 255 then some 0
      else (findMarker (b :: rest)).map (· + 1)

/-- Python `str.splitlines` line-break characters, restricted to the ASCII
range (all calibration text in the claims is ASCII). -/
def isLineBreak (c : Nat) : Bool :=
  c = 10 || c = 11 || c = 12 || c = 13 || c = 28 || c = 29 || c = 30

/-- Worker for `splitlines`: `acc` holds the current line reversed.
A `\r` directly followed by `\n` is consumed as a single break. -/
def splitlinesAux : List Nat → List Nat → List (List Nat)
  | [], acc => if acc = [] then [] else [acc.reverse]
  | [c], acc =>
      if isLineBreak c then [acc.reverse]
      else [(c :: acc).reverse]
  | c :: c₂ :: rest, acc =>
      if c = 13 ∧ c₂ = 10 then acc.reverse :: splitlinesAux rest []
      else if isLineBreak c then acc.reverse :: splitlinesAux (c₂ :: rest) []
      else splitlinesAux (c₂ :: rest) (c :: acc)

/-- Python `str.splitlines` on a decoded text (list of code points):
splits on line-break characters, treats `\r\n` as one break, and emits no
trailing empty line for terminator-ended text. -/
def splitlines (text : List Nat) : List (List Nat) :=
  splitlinesAux text []

/-- `bytes.decode("utf-8")`, modelled on the ASCII subset: succeeds exactly
when every byte is below `0x80` (all calibration text in the claims is
ASCII; any byte `≥ 0x80` would begin a multi-byte sequence the calibration
format never contains). -/
def decodeUtf8Ascii (data : List Nat) : Option (List Nat) :=
  if data.all (· < 128) then some data else none

/-- Value of an ASCII decimal digit. -/
def digitVal (c : Nat) : Option Nat :=
  if 48 ≤ c ∧ c ≤ 57 then some (c - 48) else none

/-- Parse a nonempty digit string to a natural number; `none` on any
non-digit.  (`[]` yields `some 0`; callers guard emptiness.) -/
def digitsToNat : List Nat → Option Nat
  | [] => some 0
  | c :: rest => do
      let d ← digitVal c
      let r ← digitsToNat rest
      pure (d * 10 ^ rest.length + r)

/-- Unsigned part of Python `float(s)` for plain decimal literals
`digits [. digits]` (the calibration data uses no exponents, whitespace,
underscores, or `inf`/`nan`). -/
def parseUnsigned (cs : List Nat) : Option ℚ :=
  match cs.splitOn 46 with
  | [intd] =>
      if intd = [] then none
      else (digitsToNat intd).map (fun n => (n : ℚ))
  | [intd, fracd] =>
      if intd = [] && fracd = [] then none
      else do
        let n ← digitsToNat intd
        let f ← digitsToNat fracd
        pure ((n : ℚ) + (f : ℚ) / (10 ^ fracd.length))
  | _ => none

/-- Python `float(s)` on a decimal literal with optional sign. -/
def parseFloat : List Nat → Option ℚ
  | 45 :: rest => (parseUnsigned rest).map (fun q => -q)
  | 43 :: rest => parseUnsigned rest
  | cs => parseUnsigned cs

/-- `np.array(lines, dtype=float)` : parse every line as a float, failing
(`ValueError`) if any line does not parse. -/
def parseArray : List (List Nat) → Option (List ℚ)
  | [] => some []
  | l :: ls => do
      let v ← parseFloat l
      let rest ← parseArray ls
      pure (v :: rest)

/-! ## The native-driver collaborator and the call trace -/

/-- The native driver `self.lib`.  Each status field is the `c_int` the
corresponding primitive returns; `flash` is the flash-memory content (byte
at each address); `pollFrames` gives the frame count the n-th `getStatus`
call of the session reports; `frameData` is the sample sequence `getFrame`
writes into the caller's buffer. -/
structure Device where
  connectStatus : Int
  setAcqStatus : Int
  setFrameStatus : Int
  setFrameNumPixels : Nat
  triggerStatus : Int
  getStatusStatus : Int
  getFrameStatus : Int
  readFlashStatus : Int
  flash : Nat → Nat
  pollFrames : Nat → Nat
  frameData : List Nat

/-- Observable side effects on the driver collaborator.  `flashReadCalls`
records each `readFlash` call's `(offset, size)` arguments in order;
`getFrameCalls` records each `getFrame` call's
`(allocated buffer length, max_len argument)`. -/
structure Trace where
  triggers : Nat
  statusPolls : Nat
  sleptMs : Nat
  setAcqCalls : Nat
  setFrameCalls : Nat
  flashReadCalls : List (Nat × Nat)
  getFrameCalls : List (Nat × Nat)
  deriving DecidableEq, Repr

/-- The empty trace, before any driver call. -/
def trace0 : Trace :=
  ⟨0, 0, 0, 0, 0, [], []⟩

/-- The Python-side state of an `ASQESpectrometer` instance: acquisition
parameters and the lazily loaded calibration fields (`None` ⇒ `none`). -/
structure Session where
  num_of_scans : Nat
  num_of_blank_scans : Nat
  exposure_time : Nat
  scan_mode : Nat
  num_of_start_element : Nat
  num_of_end_element : Nat
  reduction_mode : Nat
  calibLoaded : Bool
  bck_aT : Option ℚ
  wavelength : Option (List ℚ)
  norm_coef : Option (List ℚ)
  power_coef : Option (List ℚ)
  deriving DecidableEq, Repr

/-- The state `__init__` sets up (before `connect`). -/
def session0 : Session :=
  { num_of_scans := 1
    num_of_blank_scans := 0
    exposure_time := 1000
    scan_mode := 3
    num_of_start_element := 0
    num_of_end_element := 3647
    reduction_mode := 0
    calibLoaded := false
    bck_aT := none
    wavelength := none
    norm_coef := none
    power_coef := none }

/-- Python exceptions the methods can raise.  `fuelOut` is not a source
behavior: it is the embedding artifact marking that the unbounded polling
loop of `capture_frame` is still running after the given fuel. -/
inductive SpecError where
  | connectionError (code : Int)
  | runtimeError (code : Int)
  | unicodeDecodeError
  | valueError
  | typeError
  | fuelOut
  deriving DecidableEq, Repr

/-! ## The embedded methods -/

/-- `connect`: raises `ConnectionError` on a nonzero `connectToDevice`
status. -/
def connect (d : Device) : Except SpecError Unit :=
  if d.connectStatus ≠ 0 then
    Except.error (SpecError.connectionError d.connectStatus)
  else Except.ok ()

/-- `read_flash(offset, size)`: fills a `size`-byte buffer from flash and
raises `RuntimeError` when `readFlash` returns a nonzero status. -/
def read_flash (d : Device) (tr : Trace) (offset size : Nat) :
    Except SpecError (List Nat × Trace) :=
  let buffer := (List.range size).map (fun i => d.flash (offset + i))
  let tr₁ : Trace :=
    { tr with flashReadCalls := tr.flashReadCalls ++ [(offset, size)] }
  if d.readFlashStatus ≠ 0 then
    Except.error (SpecError.runtimeError d.readFlashStatus)
  else Except.ok (buffer, tr₁)

/-- The `while offset <= MAX_SIZE and not FOUND_TERMINATION` loop of
`read_calibration_file`, with `k` the current chunk index
(`offset = k * 1000`) and `remaining` the number of loop-guard passes the
offset bound still allows.  `MAX_SIZE = 100000` and `CHUNK_SIZE = 1000`
allow chunk indices `0..100`, i.e. 101 iterations. -/
def read_calibration_file_aux (d : Device) :
    Nat → Nat → Trace → Except SpecError (List Nat × Trace)
  | _, 0, tr => Except.ok ([], tr)
  | k, r + 1, tr => do
      let (data, tr₁) ← read_flash d tr (k * 1000) 1000
      match findMarker data with
      | some stop => Except.ok (data.take stop, tr₁)
      | none => do
          let (rest, tr₂) ← read_calibration_file_aux d (k + 1) r tr₁
          Except.ok (data ++ rest, tr₂)

/-- `read_calibration_file`: accumulate 1000-byte chunks from offset 0,
stopping at the first chunk containing `b"\xff\xff"` (keeping only the
bytes before the marker) or after the offset cap. -/
def read_calibration_file (d : Device) (tr : Trace) :
    Except SpecError (List Nat × Trace) :=
  read_calibration_file_aux d 0 101 tr

/-- `load_calibration_data`: return immediately when the cache flag is set;
otherwise read the blob from flash, decode it as UTF-8, split into lines,
parse `bck_aT` from line 1 (any failure there raises `ValueError`), parse
the three fixed line ranges as float arrays, and set the cache flag. -/
def load_calibration_data (d : Device) (s : Session) (tr : Trace) :
    Except SpecError (Session × Trace) :=
  if s.calibLoaded then Except.ok (s, tr)
  else do
    let (calib, tr₁) ← read_calibration_file d tr
    let decoded ← match decodeUtf8Ascii calib with
      | some t => Except.ok t
      | none => Except.error SpecError.unicodeDecodeError
    let lines := splitlines decoded
    let bck ← match lines[1]? with
      | none => Except.error SpecError.valueError
      | some l =>
          match parseFloat l with
          | none => Except.error SpecError.valueError
          | some v => Except.ok v
    let wl ← match parseArray (pySlice lines 12 3665) with
      | none => Except.error SpecError.valueError
      | some a => Except.ok a
    let nc ← match parseArray (pySlice lines 3666 7319) with
      | none => Except.error SpecError.valueError
      | some a => Except.ok a
    let pc ← match parseArray (pySlice lines 7320 10973) with
      | none => Except.error SpecError.valueError
      | some a => Except.ok a
    Except.ok
      ({ s with
          bck_aT := some bck
          wavelength := some wl
          norm_coef := some nc
          power_coef := some pc
          calibLoaded := true }, tr₁)

/-- `configure_acquisition`: calls `setAcquisitionParameters` and
`setFrameFormat`.  The source discards both status codes (they are bound
here and dropped, exactly as the Python call expressions discard them), so
this method never raises. -/
def configure_acquisition (d : Device) (_s : Session) (tr : Trace) :
    Except SpecError Trace :=
  let _status₁ := d.setAcqStatus
  let tr₁ : Trace := { tr with setAcqCalls := tr.setAcqCalls + 1 }
  let _num_pixels := d.setFrameNumPixels
  let _status₂ := d.setFrameStatus
  let tr₂ : Trace := { tr₁ with setFrameCalls := tr₁.setFrameCalls + 1 }
  Except.ok tr₂

/-- The `while frames.value == 0: sleep(0.025); getStatus(...)` loop.
Each pass sleeps 25 ms then polls once; the `getStatus` status code is
discarded by the source.  `fuel` bounds the number of passes the embedding
unrolls (the source loop is unbounded). -/
def pollLoop (d : Device) : Nat → Trace → Except SpecError Trace
  | 0, _ => Except.error SpecError.fuelOut
  | fuel + 1, tr =>
      let _status := d.getStatusStatus
      let tr₁ : Trace :=
        { tr with
            sleptMs := tr.sleptMs + 25
            statusPolls := tr.statusPolls + 1 }
      if d.pollFrames tr.statusPolls ≠ 0 then Except.ok tr₁
      else pollLoop d fuel tr₁

/-- The buffer `getFrame` fills: `(ctypes.c_uint16 * 3694)()` zero-filled,
then written with the device's frame samples. -/
def frameBuffer (d : Device) : List Nat :=
  (List.range 3694).map (fun i => d.frameData.getD i 0)

/-- `capture_frame`: one `triggerAcquisition` (status discarded), the
polling loop, then `getFrame(buffer, 65535)` on a fresh 3694-element
buffer (status discarded). -/
def capture_frame (d : Device) (fuel : Nat) (tr : Trace) :
    Except SpecError (List Nat × Trace) := do
  let _status := d.triggerStatus
  let tr₀ : Trace := { tr with triggers := tr.triggers + 1 }
  let tr₁ ← pollLoop d fuel tr₀
  let _status₂ := d.getFrameStatus
  let tr₂ : Trace :=
    { tr₁ with getFrameCalls := tr₁.getFrameCalls ++ [(3694, 65535)] }
  Except.ok (frameBuffer d, tr₂)

/-- The numeric core of `subtract_background`, applied to the captured
frame: `devd = np.mean(data[15:31])`, `devd2 = np.mean(data[3686:3692])`,
`background = (devd + devd2) / 2`, result `data[32:3685] - background`. -/
def subtract_background_pure (data : List Nat) : List ℚ :=
  let dataQ : List ℚ := data.map (fun x => (Nat.cast x : ℚ))
  let devd := listMean (pySlice dataQ 15 31)
  let devd2 := listMean (pySlice dataQ 3686 3692)
  let background := (devd + devd2) / 2
  (pySlice dataQ 32 3685).map (fun x => x - background)

/-- `subtract_background`: captures a frame and applies the numeric core. -/
def subtract_background (d : Device) (fuel : Nat) (tr : Trace) :
    Except SpecError (List ℚ × Trace) := do
  let (data, tr₁) ← capture_frame d fuel tr
  Except.ok (subtract_background_pure data, tr₁)

/-- Elementwise `a / b` for equal-length arrays (`numpy` raises on a shape
mismatch; length-1 broadcasting never occurs in this program). -/
def elementwiseDiv (a b : List ℚ) : Option (List ℚ) :=
  if a.length = b.length then some (a.zipWith (· / ·) b) else none

/-- Elementwise `a * b` for equal-length arrays. -/
def elementwiseMul (a b : List ℚ) : Option (List ℚ) :=
  if a.length = b.length then some (a.zipWith (· * ·) b) else none

/-- `normalize_spectrum`: ensure calibration is loaded, capture and
background-correct a frame, divide by `norm_coef`, and return
`(wavelength, data)`.  Using a `None` calibration field or mismatched
array shapes is a Python-level error (`typeError`). -/
def normalize_spectrum (d : Device) (s : Session) (fuel : Nat) (tr : Trace) :
    Except SpecError ((List ℚ × List ℚ) × Session × Trace) := do
  let (s₁, tr₁) ←
    if s.calibLoaded then Except.ok (s, tr) else load_calibration_data d s tr
  let (data, tr₂) ← subtract_background d fuel tr₁
  match s₁.wavelength, s₁.norm_coef with
  | some wl, some nc =>
      match elementwiseDiv data nc with
      | some res => Except.ok ((wl, res), s₁, tr₂)
      | none => Except.error SpecError.typeError
  | _, _ => Except.error SpecError.typeError

/-- `get_calibrated_spectrum`: normalize, then
`data *= power_coef / (exposure_time * bck_aT)`. -/
def get_calibrated_spectrum (d : Device) (s : Session) (fuel : Nat)
    (tr : Trace) :
    Except SpecError ((List ℚ × List ℚ) × Session × Trace) := do
  let ((wl, data), s₁, tr₁) ← normalize_spectrum d s fuel tr
  match s₁.power_coef, s₁.bck_aT with
  | some pc, some bck =>
      match elementwiseMul data
          (pc.map (fun p => p / ((s₁.exposure_time : ℚ) * bck))) with
      | some res => Except.ok ((wl, res), s₁, tr₁)
      | none => Except.error SpecError.typeError
  | _, _ => Except.error SpecError.typeError

/-- The sequence of bytes `readFlash` delivers for a given offset and
size. -/
def flashRange (d : Device) (off n : Nat) : List Nat :=
  (List.range n).map (fun i => d.flash (off + i))

/-- The `k`-th 1000-byte chunk `read_calibration_file` reads. -/
def chunk (d : Device) (k : Nat) : List Nat :=
  flashRange d (k * 1000) 1000

/-- The `(offset, size)` argument pairs of `r` consecutive chunk reads
starting at chunk index `k`: offsets advance by the chunk size 1000. -/
def chunkCalls : Nat → Nat → List (Nat × Nat)
  | _, 0 => []
  | k, r + 1 => (k * 1000, 1000) :: chunkCalls (k + 1) r

/-- `(lines.map (· ++ [10])).flatten`: each line followed by `\n`. -/
def joinLines (lines : List (List Nat)) : List Nat :=
  (lines.map (fun l => l ++ [10])).flatten

/-- Newline-joined text followed by the `0xFF 0xFF` termination marker:
the synthetic calibration blob layout. -/
def mkBlob (lines : List (List Nat)) : List Nat :=
  joinLines lines ++ [255, 255]

/-- The intensity array of a pipeline result (empty on error). -/
def calIntensity
    (r : Except SpecError ((List ℚ × List ℚ) × Session × Trace)) : List ℚ :=
  match r with
  | Except.ok ((_, data), _, _) => data
  | Except.error _ => []

/-- The trigger count of a pipeline result's trace (0 on error). -/
def calTriggers
    (r : Except SpecError ((List ℚ × List ℚ) × Session × Trace)) : Nat :=
  match r with
  | Except.ok (_, _, tr) => tr.triggers
  | Except.error _ => 0

/-- A benign device: every status 0, empty frame, zeroed flash, a frame
ready at the first poll. -/
def devBase : Device :=
  { connectStatus := 0, setAcqStatus := 0, setFrameStatus := 0,
    setFrameNumPixels := 0, triggerStatus := 0, getStatusStatus := 0,
    getFrameStatus := 0, readFlashStatus := 0,
    flash := fun _ => 0, pollFrames := fun _ => 1, frameData := [] }

/-- A device whose every primitive reports failure status 1. -/
def devAllBad : Device :=
  { devBase with
      connectStatus := 1
      setAcqStatus := 1
      setFrameStatus := 1
      triggerStatus := 1
      getStatusStatus := 1
      getFrameStatus := 1
      readFlashStatus := 1 }

/-- A device reporting zero frames on the first two polls, then 7. -/
def dev9 : Device :=
  { devBase with pollFrames := fun k => if 2 ≤ k then 7 else 0 }

/-- A device whose flash holds the `0xFF 0xFF` marker exactly at the start
of chunk 2 (offsets 2000 and 2001). -/
def dev8a : Device :=
  { devBase with flash := fun i => if i = 2000 ∨ i = 2001 then 255 else 0 }

/-- A device whose flash holds `0xFF` exactly at offsets 999 and 1000: a
marker spanning the boundary between chunk 0 and chunk 1. -/
def dev8b : Device :=
  { devBase with flash := fun i => if i = 999 ∨ i = 1000 then 255 else 0 }

/-- Twenty lines of the single digit `1`. -/
def lines20 : List (List Nat) := List.replicate 20 [49]

/-- A device whose flash holds a 20-line calibration blob (far fewer than
the 10973 lines the format requires). -/
def dev20 : Device :=
  { devBase with flash := fun i => (mkBlob lines20).getD i 0 }

/-- 10973 lines of the single digit `1`: a well-formed synthetic
calibration layout. -/
def linesC4 : List (List Nat) := List.replicate 10973 [49]

/-- A device whose flash holds the full 10973-line synthetic blob. -/
def dev4 : Device :=
  { devBase with flash := fun i => (mkBlob linesC4).getD i 0 }

/-- A device delivering a uniform frame of 1000s. -/
def scenDev : Device :=
  { devBase with frameData := List.replicate 3694 1000 }

/-- A session with calibration preloaded: `norm_coef` all 2, `power_coef`
all 4, `bck_aT = 1`, exposure time 500 µs. -/
def scenSession : Session :=
  { session0 with
      exposure_time := 500
      calibLoaded := true
      bck_aT := some 1
      wavelength := some (List.replicate 3653 7)
      norm_coef := some (List.replicate 3653 2)
      power_coef := some (List.replicate 3653 4) }

/-! ## Helper lemmas: slices, flash ranges, the marker scan -/

theorem pySlice_length (l : List α) (a b : Nat) :
    (pySlice l a b).length = min (b - a) (l.length - a) := by
  simp [pySlice]

theorem pySlice_map (l : List α) (f : α → β) (a b : Nat) :
    pySlice (l.map f) a b = (pySlice l a b).map f := by
  simp [pySlice]

theorem pySlice_getD (l : List α) (a b i : Nat) (d : α) (hi : i < b - a) :
    (pySlice l a b).getD i d = l.getD (a + i) d := by
  simp only [pySlice, List.getD, List.get?_eq_getElem?, List.getElem?_take,
    List.getElem?_drop, hi, if_pos]

theorem getD_map_cast (l : List Nat) (i : Nat) (hi : i < l.length) :
    (l.map (fun x => (Nat.cast x : ℚ))).getD i 0 = (l.getD i 0 : ℚ) := by
  rw [List.getD_eq_getElem _ _ (by simpa using hi), List.getD_eq_getElem _ _ hi]
  simp

theorem list_sum_eq_range (l : List ℚ) :
    l.sum = ∑ j ∈ Finset.range l.length, l.getD j 0 := by
  induction l with
  | nil => simp
  | cons a rest ih =>
      rw [List.sum_cons, List.length_cons, Finset.sum_range_succ', ih]
      simp only [List.getD_cons_succ, List.getD_cons_zero]
      exact add_comm _ _

theorem flashRange_length (d : Device) (off n : Nat) :
    (flashRange d off n).length = n := by
  simp [flashRange]

theorem chunk_length (d : Device) (k : Nat) : (chunk d k).length = 1000 := by
  simp [chunk, flashRange_length]

theorem flashRange_getD (d : Device) (off n i : Nat) (hi : i < n) (v : Nat) :
    (flashRange d off n).getD i v = d.flash (off + i) := by
  simp [flashRange, List.getD, List.getElem?_map, List.getElem?_range hi]

theorem flashRange_add (d : Device) (off m n : Nat) :
    flashRange d off (m + n) = flashRange d off m ++ flashRange d (off + m) n := by
  simp only [flashRange, List.range_add, List.map_append, List.map_map]
  congr 1
  apply List.map_congr_left
  intro i _
  show d.flash (off + (m + i)) = d.flash (off + m + i)
  exact congrArg d.flash (Nat.add_assoc off m i).symm

theorem flashRange_take (d : Device) (off n p : Nat) (h : p ≤ n) :
    (flashRange d off n).take p = flashRange d off p := by
  simp [flashRange, ← List.map_take, List.take_range, Nat.min_eq_left h]

theorem mem_flashRange {d : Device} {off n c : Nat}
    (h : c ∈ flashRange d off n) : ∃ i, i < n ∧ c = d.flash (off + i) := by
  simp only [flashRange, List.mem_map, List.mem_range] at h
  obtain ⟨i, hi, rfl⟩ := h
  exact ⟨i, hi, rfl⟩

theorem read_flash_ok (d : Device) (tr : Trace) (off size : Nat)
    (h : d.readFlashStatus = 0) :
    read_flash d tr off size =
      Except.ok (flashRange d off size,
        { tr with flashReadCalls := tr.flashReadCalls ++ [(off, size)] }) := by
  simp [read_flash, flashRange, h]

theorem findMarker_eq_none :
    ∀ {l : List Nat},
      (∀ i, i + 1 < l.length → ¬(l.getD i 0 = 255 ∧ l.getD (i + 1) 0 = 255)) →
      findMarker l = none
  | [], _ => rfl
  | [_], _ => rfl
  | a :: b :: rest, h => by
      rw [findMarker]
      have h0 := h 0 (by simp)
      rw [if_neg (by simpa [List.getD] using h0)]
      rw [findMarker_eq_none (l := b :: rest) ?_]
      · rfl
      · intro i hi
        have := h (i + 1) (by simpa using Nat.succ_lt_succ hi)
        simpa [List.getD] using this

theorem findMarker_at :
    ∀ (l : List Nat) (p : Nat),
      (∀ i, i < p → l.getD i 0 ≠ 255) →
      l.getD p 0 = 255 → l.getD (p + 1) 0 = 255 → p + 1 < l.length →
      findMarker l = some p
  | [], p, _, _, _, hlen => by simp at hlen
  | [_], p, _, _, _, hlen => by simp at hlen
  | a :: b :: rest, 0, _, hp, hp1, _ => by
      rw [findMarker, if_pos]
      exact ⟨by simpa [List.getD] using hp, by simpa [List.getD] using hp1⟩
  | a :: b :: rest, q + 1, hlt, hp, hp1, hlen => by
      have ha : a ≠ 255 := by
        have := hlt 0 (Nat.succ_pos q)
        simpa [List.getD] using this
      rw [findMarker, if_neg (by tauto)]
      rw [findMarker_at (b :: rest) q ?_ ?_ ?_ ?_]
      · rfl
      · intro i hi
        have := hlt (i + 1) (Nat.succ_lt_succ hi)
        simpa [List.getD] using this
      · simpa [List.getD] using hp
      · simpa [List.getD] using hp1
      · simpa using Nat.lt_of_succ_lt_succ hlen

/-! ## Helper lemmas: the chunk-accumulation loop -/

theorem exceptBind_ok (a : α) (f : α → Except SpecError β) :
    (Except.ok a : Except SpecError α) >>= f = f a := rfl

theorem chunkCalls_succ (k r : Nat) :
    chunkCalls k (r + 1) = (k * 1000, 1000) :: chunkCalls (k + 1) r := rfl

theorem chunkCalls_eq_range :
    ∀ (r k : Nat), chunkCalls k r = (List.range r).map (fun j => ((k + j) * 1000, 1000))
  | 0, _ => rfl
  | r + 1, k => by
      rw [chunkCalls_succ, chunkCalls_eq_range r (k + 1),
        List.range_succ_eq_map, List.map_cons, List.map_map]
      refine List.cons_eq_cons.mpr ⟨by simp, ?_⟩
      apply List.map_congr_left
      intro j _
      show ((k + 1 + j) * 1000, 1000) = ((k + (j + 1)) * 1000, 1000)
      rw [show k + 1 + j = k + (j + 1) by omega]

theorem read_calibration_file_aux_none (d : Device)
    (h0 : d.readFlashStatus = 0) :
    ∀ (r k : Nat) (tr : Trace),
      (∀ j, k ≤ j → j < k + r → findMarker (chunk d j) = none) →
      read_calibration_file_aux d k r tr =
        Except.ok (flashRange d (k * 1000) (r * 1000),
          { tr with flashReadCalls := tr.flashReadCalls ++ chunkCalls k r })
  | 0, k, tr, _ => by
      simp [read_calibration_file_aux, flashRange, chunkCalls]
  | r + 1, k, tr, h => by
      rw [read_calibration_file_aux, read_flash_ok d tr (k * 1000) 1000 h0]
      have hk : findMarker (chunk d k) = none :=
        h k (Nat.le_refl k) (by omega)
      rw [show flashRange d (k * 1000) 1000 = chunk d k from rfl]
      simp only [exceptBind_ok, hk]
      rw [read_calibration_file_aux_none d h0 r (k + 1) _
        (fun j hj₁ hj₂ => h j (by omega) (by omega))]
      simp only [exceptBind_ok, Except.ok.injEq, Prod.mk.injEq]
      refine ⟨?_, ?_⟩
      · rw [show (r + 1) * 1000 = 1000 + r * 1000 by omega, flashRange_add,
          show k * 1000 + 1000 = (k + 1) * 1000 by omega]
        rfl
      · simp [chunkCalls_succ, List.append_assoc]

theorem read_calibration_file_aux_marker (d : Device)
    (h0 : d.readFlashStatus = 0) :
    ∀ (n r k : Nat) (tr : Trace) (p : Nat),
      n < r →
      (∀ j, k ≤ j → j < k + n → findMarker (chunk d j) = none) →
      findMarker (chunk d (k + n)) = some p →
      read_calibration_file_aux d k r tr =
        Except.ok (flashRange d (k * 1000) (n * 1000) ++ (chunk d (k + n)).take p,
          { tr with flashReadCalls := tr.flashReadCalls ++ chunkCalls k (n + 1) })
  | 0, 0, k, tr, p, hr, _, _ => by omega
  | 0, r + 1, k, tr, p, _, _, hm => by
      rw [read_calibration_file_aux, read_flash_ok d tr (k * 1000) 1000 h0]
      rw [show flashRange d (k * 1000) 1000 = chunk d k from rfl]
      simp only [exceptBind_ok]
      rw [show k + 0 = k from rfl] at hm
      rw [hm]
      simp only [Except.ok.injEq, Prod.mk.injEq]
      refine ⟨?_, ?_⟩
      · simp [flashRange]
      · simp [chunkCalls]
  | n + 1, r, k, tr, p, hr, hnone, hm => by
      obtain ⟨r₁, rfl⟩ : ∃ r₁, r = r₁ + 1 := ⟨r - 1, by omega⟩
      rw [read_calibration_file_aux, read_flash_ok d tr (k * 1000) 1000 h0]
      have hk : findMarker (chunk d k) = none :=
        hnone k (Nat.le_refl k) (by omega)
      rw [show flashRange d (k * 1000) 1000 = chunk d k from rfl]
      simp only [exceptBind_ok, hk]
      rw [read_calibration_file_aux_marker d h0 n r₁ (k + 1) _ p (by omega)
        (fun j hj₁ hj₂ => hnone j (by omega) (by omega))
        (by rw [show k + 1 + n = k + (n + 1) by omega]; exact hm)]
      simp only [exceptBind_ok, Except.ok.injEq, Prod.mk.injEq]
      refine ⟨?_, ?_⟩
      · rw [show k + 1 + n = k + (n + 1) by omega, ← List.append_assoc,
          show (n + 1) * 1000 = 1000 + n * 1000 by omega, flashRange_add,
          show k * 1000 + 1000 = (k + 1) * 1000 by omega]
        rfl
      · simp [chunkCalls_succ k (n + 1), List.append_assoc]

/-- `read_calibration_file` when no scanned chunk contains the marker:
all 101 chunks (offsets `0, 1000, …, 100000`) are read and accumulated. -/
theorem read_calibration_file_none (d : Device) (tr : Trace)
    (h0 : d.readFlashStatus = 0)
    (h : ∀ j, j ≤ 100 → findMarker (chunk d j) = none) :
    read_calibration_file d tr =
      Except.ok (flashRange d 0 101000,
        { tr with flashReadCalls := tr.flashReadCalls ++ chunkCalls 0 101 }) := by
  rw [read_calibration_file,
    read_calibration_file_aux_none d h0 101 0 tr
      (fun j _ hj => h j (by omega))]

/-- `read_calibration_file` when chunk `N` is the first to contain the
marker (at in-chunk index `p`): chunks `0..N` are read and the result is
the bytes before the marker. -/
theorem read_calibration_file_marker (d : Device) (tr : Trace)
    (h0 : d.readFlashStatus = 0) (N p : Nat) (hN : N ≤ 100)
    (hnone : ∀ j, j < N → findMarker (chunk d j) = none)
    (hm : findMarker (chunk d N) = some p) :
    read_calibration_file d tr =
      Except.ok (flashRange d 0 (N * 1000) ++ (chunk d N).take p,
        { tr with flashReadCalls := tr.flashReadCalls ++ chunkCalls 0 (N + 1) }) := by
  rw [read_calibration_file,
    read_calibration_file_aux_marker d h0 N 101 0 tr p (by omega)
      (fun j _ hj => hnone j (by omega)) (by simpa using hm)]
  rw [Nat.zero_mul, Nat.zero_add]

/-! ## Helper lemmas: the polling loop and frame capture -/

theorem exceptBind_error (e : SpecError) (f : α → Except SpecError β) :
    (Except.error e : Except SpecError α) >>= f = Except.error e := rfl

theorem pollLoop_spec (d : Device) :
    ∀ (n fuel : Nat) (tr : Trace), n < fuel →
      (∀ m, m < n → d.pollFrames (tr.statusPolls + m) = 0) →
      d.pollFrames (tr.statusPolls + n) ≠ 0 →
      pollLoop d fuel tr =
        Except.ok
          { tr with statusPolls := tr.statusPolls + (n + 1),
                    sleptMs := tr.sleptMs + 25 * (n + 1) }
  | 0, fuel, tr, hn, _, hnz => by
      obtain ⟨f, rfl⟩ : ∃ f, fuel = f + 1 := ⟨fuel - 1, by omega⟩
      rw [pollLoop, if_pos (by simpa using hnz)]
  | n + 1, fuel, tr, hn, hz, hnz => by
      obtain ⟨f, rfl⟩ : ∃ f, fuel = f + 1 := ⟨fuel - 1, by omega⟩
      rw [pollLoop, if_neg (by simpa using hz 0 (by omega))]
      rw [pollLoop_spec d n f _ (by omega)
        (fun m hm => by
          show d.pollFrames (tr.statusPolls + 1 + m) = 0
          rw [show tr.statusPolls + 1 + m = tr.statusPolls + (m + 1) by omega]
          exact hz (m + 1) (by omega))
        (by
          show d.pollFrames (tr.statusPolls + 1 + n) ≠ 0
          rw [show tr.statusPolls + 1 + n = tr.statusPolls + (n + 1) by omega]
          exact hnz)]
      simp only [Except.ok.injEq, Trace.mk.injEq, eq_self_iff_true, true_and,
        and_true]
      omega

theorem pollLoop_exhaust (d : Device) :
    ∀ (fuel : Nat) (tr : Trace),
      (∀ m, m < fuel → d.pollFrames (tr.statusPolls + m) = 0) →
      pollLoop d fuel tr = Except.error SpecError.fuelOut
  | 0, _, _ => rfl
  | fuel + 1, tr, h => by
      rw [pollLoop, if_neg (by simpa using h 0 (by omega))]
      exact pollLoop_exhaust d fuel _ (fun m hm => by
        show d.pollFrames (tr.statusPolls + 1 + m) = 0
        rw [show tr.statusPolls + 1 + m = tr.statusPolls + (m + 1) by omega]
        exact h (m + 1) (by omega))

theorem pollLoop_ok_inv (d : Device) :
    ∀ (fuel : Nat) (tr tr₁ : Trace), pollLoop d fuel tr = Except.ok tr₁ →
      tr₁.triggers = tr.triggers ∧ tr₁.flashReadCalls = tr.flashReadCalls ∧
      tr₁.getFrameCalls = tr.getFrameCalls
  | 0, tr, tr₁, h => by simp [pollLoop] at h
  | fuel + 1, tr, tr₁, h => by
      rw [pollLoop] at h
      by_cases hc : d.pollFrames tr.statusPolls ≠ 0
      · rw [if_pos hc] at h
        obtain rfl := (Except.ok.inj h).symm
        exact ⟨rfl, rfl, rfl⟩
      · rw [if_neg hc] at h
        have hrec := pollLoop_ok_inv d fuel _ tr₁ h
        exact hrec

theorem frameBuffer_length (d : Device) : (frameBuffer d).length = 3694 := by
  simp [frameBuffer]

theorem capture_frame_spec (d : Device) (fuel n : Nat) (tr : Trace)
    (hn : n < fuel)
    (hz : ∀ m, m < n → d.pollFrames (tr.statusPolls + m) = 0)
    (hnz : d.pollFrames (tr.statusPolls + n) ≠ 0) :
    capture_frame d fuel tr =
      Except.ok (frameBuffer d,
        { tr with triggers := tr.triggers + 1,
                  statusPolls := tr.statusPolls + (n + 1),
                  sleptMs := tr.sleptMs + 25 * (n + 1),
                  getFrameCalls := tr.getFrameCalls ++ [(3694, 65535)] }) := by
  rw [capture_frame]
  rw [pollLoop_spec d n fuel { tr with triggers := tr.triggers + 1 } hn hz hnz]
  rfl

theorem capture_frame_ok_inv (d : Device) (fuel : Nat) (tr : Trace)
    (b : List Nat) (tr₁ : Trace)
    (h : capture_frame d fuel tr = Except.ok (b, tr₁)) :
    b = frameBuffer d ∧ tr₁.triggers = tr.triggers + 1 ∧
    tr₁.flashReadCalls = tr.flashReadCalls ∧
    tr₁.getFrameCalls = tr.getFrameCalls ++ [(3694, 65535)] := by
  rw [capture_frame] at h
  cases hp : pollLoop d fuel { tr with triggers := tr.triggers + 1 } with
  | error e => rw [hp] at h; exact absurd h (by simp [exceptBind_error])
  | ok tm =>
      rw [hp] at h
      rw [exceptBind_ok] at h
      obtain ⟨h₁, h₂⟩ := Prod.mk.inj (Except.ok.inj h)
      obtain ⟨ht, hf, hg⟩ := pollLoop_ok_inv d fuel _ tm hp
      subst h₂
      refine ⟨h₁.symm, ht, hf, ?_⟩
      show tm.getFrameCalls ++ [(3694, 65535)] = tr.getFrameCalls ++ [(3694, 65535)]
      rw [hg]

theorem pollLoop_error_eq (d : Device) :
    ∀ (fuel : Nat) (tr : Trace) (e : SpecError),
      pollLoop d fuel tr = Except.error e → e = SpecError.fuelOut
  | 0, _, e, h => by simpa [pollLoop] using (Except.error.inj h).symm
  | fuel + 1, tr, e, h => by
      rw [pollLoop] at h
      by_cases hc : d.pollFrames tr.statusPolls ≠ 0
      · rw [if_pos hc] at h
        exact absurd h (by simp)
      · rw [if_neg hc] at h
        exact pollLoop_error_eq d fuel _ e h

theorem capture_frame_ok_or_fuelOut (d : Device) (fuel : Nat) (tr : Trace) :
    (Except.isOk (capture_frame d fuel tr)) = true ∨
    capture_frame d fuel tr = Except.error SpecError.fuelOut := by
  rw [capture_frame]
  cases hp : pollLoop d fuel { tr with triggers := tr.triggers + 1 } with
  | error e =>
      right
      rw [exceptBind_error, pollLoop_error_eq d fuel _ e hp]
  | ok tm =>
      left
      rw [exceptBind_ok]
      rfl

/-! ## Helper lemmas: the numeric pipeline -/

theorem getD_map_of_lt (f : ℚ → ℚ) (l : List ℚ) (i : Nat) (hi : i < l.length) :
    (l.map f).getD i 0 = f (l.getD i 0) := by
  rw [List.getD_eq_getElem _ _ (by simpa using hi), List.getD_eq_getElem _ _ hi]
  simp

theorem getD_zipWith (f : ℚ → ℚ → ℚ) (a b : List ℚ) (i : Nat)
    (ha : i < a.length) (hb : i < b.length) :
    (a.zipWith f b).getD i 0 = f (a.getD i 0) (b.getD i 0) := by
  rw [List.getD_eq_getElem _ _ (by rw [List.length_zipWith]; omega),
      List.getD_eq_getElem _ _ ha, List.getD_eq_getElem _ _ hb]
  simp

theorem pySlice_mean_eq (frame : List Nat) (a b : Nat) (hab : a ≤ b)
    (hb : b ≤ frame.length) :
    listMean (pySlice (frame.map (fun x => (Nat.cast x : ℚ))) a b) =
      (∑ j ∈ Finset.range (b - a), (frame.getD (a + j) 0 : ℚ)) / (b - a) := by
  have hlen : (frame.map (fun x => (Nat.cast x : ℚ))).length = frame.length := by
    simp
  have hl1 : (pySlice (frame.map (fun x => (Nat.cast x : ℚ))) a b).length = b - a := by
    rw [pySlice_length, hlen]
    omega
  rw [listMean, list_sum_eq_range, hl1]
  congr 1
  · apply Finset.sum_congr rfl
    intro j hj
    rw [pySlice_getD _ _ _ _ _ (Finset.mem_range.mp hj),
      getD_map_cast _ _ (by have := Finset.mem_range.mp hj; omega)]
  · rw [Nat.cast_sub hab]

theorem subtract_background_pure_length (frame : List Nat)
    (h : frame.length = 3694) :
    (subtract_background_pure frame).length = 3653 := by
  rw [subtract_background_pure]
  rw [List.length_map, pySlice_length, List.length_map, h]
  omega

theorem subtract_background_pure_getD (frame : List Nat)
    (h : frame.length = 3694) (i : Nat) (hi : i < 3653) :
    (subtract_background_pure frame).getD i 0 =
      (frame.getD (32 + i) 0 : ℚ) -
        ((∑ j ∈ Finset.range 16, (frame.getD (15 + j) 0 : ℚ)) / 16 +
         (∑ j ∈ Finset.range 6, (frame.getD (3686 + j) 0 : ℚ)) / 6) / 2 := by
  rw [subtract_background_pure]
  have hlen : (frame.map (fun x => (Nat.cast x : ℚ))).length = 3694 := by
    simp [h]
  rw [getD_map_of_lt _ _ _ (by rw [pySlice_length, hlen]; omega)]
  rw [pySlice_getD _ _ _ _ _ (by omega), getD_map_cast _ _ (by omega)]
  rw [pySlice_mean_eq frame 15 31 (by omega) (by omega),
    pySlice_mean_eq frame 3686 3692 (by omega) (by omega)]
  norm_num

/-! ## Helper lemmas: text splitting and float parsing -/

theorem getD_append_left (l₁ l₂ : List α) (i : Nat) (d : α)
    (h : i < l₁.length) : (l₁ ++ l₂).getD i d = l₁.getD i d := by
  rw [List.getD_eq_getElem _ _ (by rw [List.length_append]; omega),
    List.getD_eq_getElem _ _ h, List.getElem_append_left]

theorem getD_append_right (l₁ l₂ : List α) (j : Nat) (d : α)
    (h : j < l₂.length) : (l₁ ++ l₂).getD (l₁.length + j) d = l₂.getD j d := by
  rw [List.getD_eq_getElem _ _ (by rw [List.length_append]; omega),
    List.getD_eq_getElem _ _ h]
  rw [List.getElem_append_right (by omega)]
  congr 1
  omega

theorem getD_mem (l : List α) (i : Nat) (d : α) (h : i < l.length) :
    l.getD i d ∈ l := by
  rw [List.getD_eq_getElem _ _ h]
  exact List.getElem_mem h

theorem splitlinesAux_line (line rest acc : List Nat)
    (h : ∀ c ∈ line, isLineBreak c = false) :
    splitlinesAux (line ++ 10 :: rest) acc =
      (acc.reverse ++ line) :: splitlinesAux rest [] := by
  induction line generalizing acc with
  | nil =>
      rw [List.nil_append]
      cases rest with
      | nil =>
          rw [show splitlinesAux [10] acc =
              (if isLineBreak 10 then [acc.reverse]
               else [(10 :: acc).reverse]) from rfl]
          rw [if_pos (by simp [isLineBreak])]
          rw [show splitlinesAux ([] : List Nat) ([] : List Nat) = [] from rfl]
          rw [List.append_nil]
      | cons r rs =>
          rw [splitlinesAux]
          rw [if_neg (by simp), if_pos (by simp [isLineBreak])]
          rw [List.append_nil]
  | cons c cs ih =>
      have hc : isLineBreak c = false := h c (List.mem_cons_self c cs)
      have hc13 : ¬c = 13 := by
        intro he
        rw [he] at hc
        simp [isLineBreak] at hc
      rw [List.cons_append]
      cases hcs : cs ++ 10 :: rest with
      | nil => exact absurd hcs (by simp)
      | cons c₂ rest₂ =>
          rw [splitlinesAux]
          rw [if_neg (by tauto), if_neg (by simp [hc])]
          rw [← hcs, ih (c :: acc) (fun x hx => h x (List.mem_cons_of_mem c hx))]
          rw [List.reverse_cons, List.append_assoc]
          rfl

theorem splitlines_joinLines (lines : List (List Nat))
    (h : ∀ l ∈ lines, ∀ c ∈ l, isLineBreak c = false) :
    splitlines (joinLines lines) = lines := by
  induction lines with
  | nil => simp [joinLines, splitlines, splitlinesAux]
  | cons l ls ih =>
      rw [joinLines, List.map_cons, List.flatten_cons, List.append_assoc,
        List.singleton_append, splitlines,
        splitlinesAux_line l _ [] (h l (List.mem_cons_self l ls))]
      rw [List.reverse_nil, List.nil_append]
      rw [show splitlinesAux ((ls.map (fun l => l ++ [10])).flatten) [] =
        splitlines (joinLines ls) from rfl]
      rw [ih (fun x hx c hc => h x (List.mem_cons_of_mem l hx) c hc)]

theorem joinLines_mem {lines : List (List Nat)} {c : Nat}
    (h : c ∈ joinLines lines) : (∃ l ∈ lines, c ∈ l) ∨ c = 10 := by
  rw [joinLines, List.mem_flatten] at h
  obtain ⟨x, hx, hcx⟩ := h
  rw [List.mem_map] at hx
  obtain ⟨l, hl, rfl⟩ := hx
  rw [List.mem_append] at hcx
  cases hcx with
  | inl hcl => exact Or.inl ⟨l, hl, hcl⟩
  | inr hc10 => exact Or.inr (by simpa using hc10)

theorem range_map_getD (l : List α) (d : α) :
    (List.range l.length).map (fun i => l.getD i d) = l := by
  apply List.ext_getElem
  · simp
  · intro i h1 h2
    simp only [List.getElem_map, List.getElem_range]
    rw [List.getD_eq_getElem _ _ h2]

theorem decodeUtf8Ascii_of_ascii (data : List Nat)
    (h : ∀ c ∈ data, c < 128) : decodeUtf8Ascii data = some data := by
  rw [decodeUtf8Ascii, if_pos]
  rw [List.all_eq_true]
  intro c hc
  simpa using h c hc

theorem parseArray_length :
    ∀ {ls : List (List Nat)} {a : List ℚ},
      parseArray ls = some a → a.length = ls.length
  | [], a, h => by
      rw [parseArray] at h
      rw [← Option.some.inj h]
      rfl
  | l :: ls, a, h => by
      rw [parseArray] at h
      cases hp : parseFloat l with
      | none => rw [hp] at h; exact absurd h (by simp)
      | some v =>
          rw [hp] at h
          cases hr : parseArray ls with
          | none => rw [hr] at h; exact absurd h (by simp)
          | some rest =>
              rw [hr] at h
              simp only [Option.pure_def, Option.bind_eq_bind,
                Option.some_bind, Option.some.injEq] at h
              rw [← h]
              simp [parseArray_length hr]

theorem parseArray_replicate (l : List Nat) (v : ℚ)
    (h : parseFloat l = some v) :
    ∀ n, parseArray (List.replicate n l) = some (List.replicate n v)
  | 0 => rfl
  | n + 1 => by
      rw [List.replicate_succ, parseArray, h, parseArray_replicate l v h n]
      rfl

/-! ## Helper lemmas: reducing `load_calibration_data` -/

theorem load_calibration_data_cached (d : Device) (s : Session) (tr : Trace)
    (hs : s.calibLoaded = true) :
    load_calibration_data d s tr = Except.ok (s, tr) := by
  rw [load_calibration_data, hs]
  rfl

theorem load_calibration_data_parses (d : Device) (s : Session) (tr : Trace)
    (blob text l₁ : List Nat) (tr₁ : Trace) (bck : ℚ) (wl nc pc : List ℚ)
    (hs : s.calibLoaded = false)
    (hread : read_calibration_file d tr = Except.ok (blob, tr₁))
    (hdec : decodeUtf8Ascii blob = some text)
    (h1 : (splitlines text)[1]? = some l₁)
    (hbck : parseFloat l₁ = some bck)
    (hwl : parseArray (pySlice (splitlines text) 12 3665) = some wl)
    (hnc : parseArray (pySlice (splitlines text) 3666 7319) = some nc)
    (hpc : parseArray (pySlice (splitlines text) 7320 10973) = some pc) :
    load_calibration_data d s tr =
      Except.ok ({ s with bck_aT := some bck, wavelength := some wl,
                          norm_coef := some nc, power_coef := some pc,
                          calibLoaded := true }, tr₁) := by
  rw [load_calibration_data, hs]
  simp only [Bool.false_eq_true, if_false, hread, exceptBind_ok, hdec, h1,
    hbck, hwl, hnc, hpc]

theorem load_calibration_data_short (d : Device) (s : Session) (tr : Trace)
    (blob text : List Nat) (tr₁ : Trace)
    (hs : s.calibLoaded = false)
    (hread : read_calibration_file d tr = Except.ok (blob, tr₁))
    (hdec : decodeUtf8Ascii blob = some text)
    (h1 : (splitlines text).length < 2) :
    load_calibration_data d s tr = Except.error SpecError.valueError := by
  have h1' : (splitlines text)[1]? = none := by
    rw [List.getElem?_eq_none]
    omega
  rw [load_calibration_data, hs]
  simp only [Bool.false_eq_true, if_false, hread, exceptBind_ok,
    exceptBind_error, hdec, h1']

/-! ## Helper lemmas: reading a synthetic blob back from flash -/

theorem text_byte_ne_255 (lines : List (List Nat))
    (hchars : ∀ l ∈ lines, ∀ c ∈ l, c < 128)
    (pos : Nat) (hpos : pos < (joinLines lines).length) :
    (mkBlob lines).getD pos 0 ≠ 255 := by
  rw [mkBlob, getD_append_left _ _ _ _ hpos]
  have hmem := getD_mem (joinLines lines) pos 0 hpos
  rcases joinLines_mem hmem with ⟨l, hl, hc⟩ | h10
  · have := hchars l hl _ hc
    omega
  · omega

theorem chunk_of_text_no_marker (d : Device) (lines : List (List Nat))
    (hflash : ∀ i, d.flash i = (mkBlob lines).getD i 0)
    (hchars : ∀ l ∈ lines, ∀ c ∈ l, c < 128)
    (j : Nat) (hj : (j + 1) * 1000 ≤ (joinLines lines).length) :
    findMarker (chunk d j) = none := by
  apply findMarker_eq_none
  intro i hi hpair
  rw [chunk_length] at hi
  have h1 : (chunk d j).getD i 0 = d.flash (j * 1000 + i) :=
    flashRange_getD d (j * 1000) 1000 i (by omega) 0
  have h2 := text_byte_ne_255 lines hchars (j * 1000 + i) (by omega)
  rw [h1, hflash] at hpair
  exact h2 hpair.1

theorem marker_byte_0 (lines : List (List Nat)) :
    (mkBlob lines).getD (joinLines lines).length 0 = 255 := by
  rw [mkBlob, show (joinLines lines).length = (joinLines lines).length + 0 by omega,
    getD_append_right _ _ _ _ (by norm_num)]
  rfl

theorem marker_byte_1 (lines : List (List Nat)) :
    (mkBlob lines).getD ((joinLines lines).length + 1) 0 = 255 := by
  rw [mkBlob, getD_append_right _ _ _ _ (by norm_num)]
  rfl

theorem chunk_of_text_marker (d : Device) (lines : List (List Nat))
    (hflash : ∀ i, d.flash i = (mkBlob lines).getD i 0)
    (hchars : ∀ l ∈ lines, ∀ c ∈ l, c < 128)
    (hT1 : (joinLines lines).length % 1000 ≤ 998) :
    findMarker (chunk d ((joinLines lines).length / 1000)) =
      some ((joinLines lines).length % 1000) := by
  apply findMarker_at
  · intro i hi
    rw [chunk, flashRange_getD d _ 1000 i (by omega) 0, hflash]
    exact text_byte_ne_255 lines hchars _
      (by have := Nat.div_add_mod' (joinLines lines).length 1000; omega)
  · rw [chunk, flashRange_getD d _ 1000 ((joinLines lines).length % 1000)
      (by omega) 0, hflash, Nat.div_add_mod']
    exact marker_byte_0 lines
  · rw [chunk, flashRange_getD d _ 1000 ((joinLines lines).length % 1000 + 1)
      (by omega) 0, hflash,
      show (joinLines lines).length / 1000 * 1000 + ((joinLines lines).length % 1000 + 1)
        = (joinLines lines).length + 1 by
          have := Nat.div_add_mod' (joinLines lines).length 1000; omega]
    exact marker_byte_1 lines
  · rw [chunk_length]
    omega

theorem flashRange_mkBlob_text (d : Device) (lines : List (List Nat))
    (hflash : ∀ i, d.flash i = (mkBlob lines).getD i 0) :
    flashRange d 0 (joinLines lines).length = joinLines lines := by
  rw [flashRange]
  have hcongr : ∀ i ∈ List.range (joinLines lines).length,
      d.flash (0 + i) = (joinLines lines).getD i 0 := by
    intro i hi
    rw [Nat.zero_add, hflash i, mkBlob,
      getD_append_left _ _ _ _ (List.mem_range.mp hi)]
  rw [List.map_congr_left hcongr, range_map_getD]

theorem read_calibration_file_mkBlob (d : Device) (tr : Trace)
    (lines : List (List Nat))
    (h0 : d.readFlashStatus = 0)
    (hflash : ∀ i, d.flash i = (mkBlob lines).getD i 0)
    (hchars : ∀ l ∈ lines, ∀ c ∈ l, c < 128)
    (hT1 : (joinLines lines).length % 1000 ≤ 998)
    (hT2 : (joinLines lines).length ≤ 100998) :
    read_calibration_file d tr =
      Except.ok (joinLines lines,
        { tr with flashReadCalls := tr.flashReadCalls ++
            chunkCalls 0 ((joinLines lines).length / 1000 + 1) }) := by
  have hK : (joinLines lines).length / 1000 ≤ 100 := by omega
  rw [read_calibration_file_marker d tr h0
      ((joinLines lines).length / 1000) ((joinLines lines).length % 1000) hK
      (fun j hj => chunk_of_text_no_marker d lines hflash hchars j
        (by have := Nat.div_add_mod (joinLines lines).length 1000
            have := Nat.mod_lt (joinLines lines).length (show 0 < 1000 by omega)
            omega))
      (chunk_of_text_marker d lines hflash hchars hT1)]
  rw [chunk, flashRange_take d _ 1000 _ (by omega)]
  have hadd := flashRange_add d 0 ((joinLines lines).length / 1000 * 1000)
    ((joinLines lines).length % 1000)
  rw [Nat.zero_add] at hadd
  rw [← hadd, Nat.div_add_mod', flashRange_mkBlob_text d lines hflash]

/-! ## Helper lemmas: replicate utilities and the full pipeline -/

theorem getD_replicate {n i : Nat} (v d : α) (h : i < n) :
    (List.replicate n v).getD i d = v := by
  rw [List.getD_eq_getElem _ _ (by simpa using h), List.getElem_replicate]

theorem replicate_getElem? (n i : Nat) (a : α) (h : i < n) :
    (List.replicate n a)[i]? = some a := by
  rw [List.getElem?_eq_getElem (by simpa using h), List.getElem_replicate]

theorem pySlice_replicate (n a b : Nat) (x : α) :
    pySlice (List.replicate n x) a b = List.replicate (min (b - a) (n - a)) x := by
  rw [pySlice, List.drop_replicate, List.take_replicate]

theorem frameBuffer_const (v : Nat) (d : Device)
    (hd : d.frameData = List.replicate 3694 v) :
    frameBuffer d = List.replicate 3694 v := by
  rw [frameBuffer, hd]
  have hcongr : ∀ i ∈ List.range 3694,
      (List.replicate 3694 v).getD i 0 = (fun _ => v) i :=
    fun i hi => getD_replicate v 0 (List.mem_range.mp hi)
  rw [List.map_congr_left hcongr, List.map_const', List.length_range]

theorem joinLines_cons (l : List Nat) (ls : List (List Nat)) :
    joinLines (l :: ls) = (l ++ [10]) ++ joinLines ls := by
  rw [joinLines, List.map_cons, List.flatten_cons, joinLines]

theorem joinLines_replicate_length (n : Nat) (l : List Nat) :
    (joinLines (List.replicate n l)).length = n * (l.length + 1) := by
  induction n with
  | zero => simp [joinLines]
  | succ m ih =>
      rw [List.replicate_succ, joinLines_cons, List.length_append, ih,
        List.length_append]
      simp
      ring

theorem load_calibration_data_ok_loaded (d : Device) (s : Session)
    (tr : Trace) (s₁ : Session) (tr₁ : Trace)
    (h : load_calibration_data d s tr = Except.ok (s₁, tr₁)) :
    s₁.calibLoaded = true := by
  by_cases hb : s.calibLoaded = true
  · rw [load_calibration_data_cached d s tr hb] at h
    obtain ⟨hs, _⟩ := Prod.mk.inj (Except.ok.inj h)
    rw [← hs]
    exact hb
  · rw [load_calibration_data, if_neg hb] at h
    cases hr : read_calibration_file d tr with
    | error e =>
        rw [hr] at h
        exact absurd h (by simp [exceptBind_error])
    | ok pr =>
        obtain ⟨blob, tr₂⟩ := pr
        rw [hr] at h
        cases hdec : decodeUtf8Ascii blob with
        | none =>
            simp only [exceptBind_ok, hdec, exceptBind_error] at h
            exact absurd h (by simp)
        | some text =>
            simp only [exceptBind_ok, hdec] at h
            cases h1 : (splitlines text)[1]? with
            | none =>
                simp only [h1, exceptBind_error] at h
                exact absurd h (by simp)
            | some l₁ =>
                simp only [h1] at h
                cases hp1 : parseFloat l₁ with
                | none =>
                    simp only [hp1, exceptBind_error] at h
                    exact absurd h (by simp)
                | some bck =>
                    simp only [hp1, exceptBind_ok] at h
                    cases hw : parseArray (pySlice (splitlines text) 12 3665) with
                    | none =>
                        simp only [hw, exceptBind_error] at h
                        exact absurd h (by simp)
                    | some wl =>
                        simp only [hw, exceptBind_ok] at h
                        cases hn : parseArray (pySlice (splitlines text) 3666 7319) with
                        | none =>
                            simp only [hn, exceptBind_error] at h
                            exact absurd h (by simp)
                        | some nc =>
                            simp only [hn, exceptBind_ok] at h
                            cases hpw : parseArray (pySlice (splitlines text) 7320 10973) with
                            | none =>
                                simp only [hpw, exceptBind_error] at h
                                exact absurd h (by simp)
                            | some pc =>
                                simp only [hpw, exceptBind_ok,
                                  Except.ok.injEq, Prod.mk.injEq] at h
                                rw [← h.1]

theorem get_calibrated_spectrum_loaded_inv (d : Device) (s : Session)
    (fuel : Nat) (tr : Trace) (r : List ℚ × List ℚ) (s₁ : Session)
    (tr₁ : Trace) (hld : s.calibLoaded = true)
    (h : get_calibrated_spectrum d s fuel tr = Except.ok (r, s₁, tr₁)) :
    s₁ = s ∧ tr₁.flashReadCalls = tr.flashReadCalls := by
  rw [get_calibrated_spectrum, normalize_spectrum, hld] at h
  simp only [if_pos, exceptBind_ok] at h
  rw [subtract_background] at h
  cases hc : capture_frame d fuel tr with
  | error e =>
      rw [hc] at h
      simp only [exceptBind_error] at h
      exact absurd h (by simp)
  | ok pr =>
      obtain ⟨b, trc⟩ := pr
      rw [hc] at h
      simp only [exceptBind_ok] at h
      obtain ⟨_, _, hfc, _⟩ := capture_frame_ok_inv d fuel tr b trc hc
      cases hw : s.wavelength with
      | none =>
          simp only [hw, exceptBind_error] at h
          exact absurd h (by simp)
      | some wl =>
          cases hn : s.norm_coef with
          | none =>
              simp only [hw, hn, exceptBind_error] at h
              exact absurd h (by simp)
          | some nc =>
              simp only [hw, hn] at h
              cases hdv : elementwiseDiv (subtract_background_pure b) nc with
              | none =>
                  simp only [hdv, exceptBind_error] at h
                  exact absurd h (by simp)
              | some res =>
                  simp only [hdv, exceptBind_ok] at h
                  cases hp : s.power_coef with
                  | none =>
                      simp only [hp] at h
                      exact absurd h (by simp)
                  | some pc =>
                      cases hbk : s.bck_aT with
                      | none =>
                          simp only [hp, hbk] at h
                          exact absurd h (by simp)
                      | some bck =>
                          simp only [hp, hbk] at h
                          cases hml : elementwiseMul res
                              (pc.map (fun p =>
                                p / ((s.exposure_time : ℚ) * bck))) with
                          | none =>
                              simp only [hml] at h
                              exact absurd h (by simp)
                          | some res₂ =>
                              simp only [hml, Except.ok.injEq,
                                Prod.mk.injEq] at h
                              obtain ⟨-, hs₁, htr₁⟩ := h
                              rw [← hs₁, ← htr₁]
                              exact ⟨rfl, hfc⟩

theorem get_calibrated_spectrum_spec (d : Device) (s : Session)
    (fuel n : Nat) (tr : Trace) (wl nc pc : List ℚ) (bck : ℚ)
    (hld : s.calibLoaded = true)
    (hwl : s.wavelength = some wl) (hnc : s.norm_coef = some nc)
    (hpc : s.power_coef = some pc) (hbk : s.bck_aT = some bck)
    (hncl : nc.length = 3653) (hpcl : pc.length = 3653)
    (hn : n < fuel)
    (hz : ∀ m, m < n → d.pollFrames (tr.statusPolls + m) = 0)
    (hnz : d.pollFrames (tr.statusPolls + n) ≠ 0) :
    get_calibrated_spectrum d s fuel tr =
      Except.ok ((wl,
        ((subtract_background_pure (frameBuffer d)).zipWith (· / ·) nc).zipWith
          (· * ·) (pc.map (fun p => p / ((s.exposure_time : ℚ) * bck)))), s,
        { tr with triggers := tr.triggers + 1,
                  statusPolls := tr.statusPolls + (n + 1),
                  sleptMs := tr.sleptMs + 25 * (n + 1),
                  getFrameCalls := tr.getFrameCalls ++ [(3694, 65535)] }) := by
  have hsub : (subtract_background_pure (frameBuffer d)).length = 3653 :=
    subtract_background_pure_length _ (frameBuffer_length d)
  rw [get_calibrated_spectrum, normalize_spectrum, hld]
  simp only [if_pos, exceptBind_ok]
  rw [subtract_background, capture_frame_spec d fuel n tr hn hz hnz]
  simp only [exceptBind_ok, hwl, hnc]
  rw [elementwiseDiv, if_pos (by rw [hsub, hncl])]
  simp only [exceptBind_ok, hpc, hbk]
  rw [elementwiseMul,
    if_pos (by rw [List.length_zipWith, hsub, hncl, List.length_map, hpcl]; omega)]

/-! ## The claims -/

/-- C1 (counterexample): with a device whose primitives all return status 1,
`configure_acquisition` and `capture_frame` complete normally — the nonzero
statuses of `setAcquisitionParameters`, `setFrameFormat`,
`triggerAcquisition`, `getStatus` and `getFrame` are silently ignored,
contradicting the claim that every device primitive's nonzero status raises
an error. -/
theorem C1_counterexample :
    devAllBad.setAcqStatus ≠ 0 ∧ devAllBad.setFrameStatus ≠ 0 ∧
    devAllBad.triggerStatus ≠ 0 ∧ devAllBad.getStatusStatus ≠ 0 ∧
    devAllBad.getFrameStatus ≠ 0 ∧
    configure_acquisition devAllBad session0 trace0 =
      Except.ok { trace0 with setAcqCalls := 1, setFrameCalls := 1 } ∧
    capture_frame devAllBad 1 trace0 =
      Except.ok (frameBuffer devAllBad,
        { trace0 with triggers := 1, statusPolls := 1, sleptMs := 25,
                      getFrameCalls := [(3694, 65535)] }) := by
  refine ⟨by decide, by decide, by decide, by decide, by decide, rfl, rfl⟩

/-- C1 (amended): only `connectToDevice` and `readFlash` have their nonzero
statuses turned into raised errors; `configure_acquisition` never raises
regardless of the statuses `setAcquisitionParameters`/`setFrameFormat`
return, and `capture_frame` either succeeds or is still polling — it never
raises on a status code. -/
theorem C1_status_checks :
    (∀ d : Device, d.connectStatus ≠ 0 →
      connect d = Except.error (SpecError.connectionError d.connectStatus)) ∧
    (∀ (d : Device) (tr : Trace) (off size : Nat), d.readFlashStatus ≠ 0 →
      read_flash d tr off size =
        Except.error (SpecError.runtimeError d.readFlashStatus)) ∧
    (∀ (d : Device) (s : Session) (tr : Trace),
      configure_acquisition d s tr =
        Except.ok { tr with setAcqCalls := tr.setAcqCalls + 1,
                            setFrameCalls := tr.setFrameCalls + 1 }) ∧
    (∀ (d : Device) (fuel : Nat) (tr : Trace),
      (Except.isOk (capture_frame d fuel tr)) = true ∨
      capture_frame d fuel tr = Except.error SpecError.fuelOut) := by
  refine ⟨?_, ?_, ?_, ?_⟩
  · intro d h
    rw [connect, if_pos h]
  · intro d tr off size h
    rw [read_flash, if_pos h]
  · intro d s tr
    rfl
  · intro d fuel tr
    exact capture_frame_ok_or_fuelOut d fuel tr

/-- C1 witness: the amended statement applied to the all-failing device. -/
theorem C1_status_checks_witness :
    connect devAllBad = Except.error (SpecError.connectionError 1) ∧
    read_flash devAllBad trace0 0 4 =
      Except.error (SpecError.runtimeError 1) ∧
    configure_acquisition devAllBad session0 trace0 =
      Except.ok { trace0 with setAcqCalls := 1, setFrameCalls := 1 } := by
  refine ⟨C1_status_checks.1 devAllBad (by decide),
    C1_status_checks.2.1 devAllBad trace0 0 4 (by decide), ?_⟩
  exact C1_status_checks.2.2.1 devAllBad session0 trace0

/-- C3: `read_calibration_file` reads fixed 1000-byte chunks at offsets
`0, 1000, …` ; on the first chunk containing `0xFF 0xFF` it keeps only the
bytes before the marker and stops; when no scanned chunk contains the
marker it stops without raising after the offset cap of 100000, having
accumulated all 101 chunks. -/
theorem C3_read_calibration_loop (d : Device) (tr : Trace)
    (h0 : d.readFlashStatus = 0) :
    ((∀ j, j ≤ 100 → findMarker (chunk d j) = none) →
      read_calibration_file d tr =
        Except.ok (flashRange d 0 101000,
          { tr with flashReadCalls :=
              tr.flashReadCalls ++ chunkCalls 0 101 })) ∧
    (∀ N p, N ≤ 100 → (∀ j, j < N → findMarker (chunk d j) = none) →
      findMarker (chunk d N) = some p →
      read_calibration_file d tr =
        Except.ok (flashRange d 0 (N * 1000) ++ (chunk d N).take p,
          { tr with flashReadCalls :=
              tr.flashReadCalls ++ chunkCalls 0 (N + 1) })) ∧
    chunkCalls 0 101 = (List.range 101).map (fun k => (k * 1000, 1000)) := by
  refine ⟨read_calibration_file_none d tr h0,
    fun N p hN h1 h2 => read_calibration_file_marker d tr h0 N p hN h1 h2, ?_⟩
  rw [chunkCalls_eq_range]
  apply List.map_congr_left
  intro j _
  rw [Nat.zero_add]

/-- C3 witness: on an all-zero flash no chunk ever contains the marker, and
the loop accumulates all 101 chunks without raising. -/
theorem C3_read_calibration_loop_witness :
    read_calibration_file devBase trace0 =
      Except.ok (flashRange devBase 0 101000,
        { trace0 with flashReadCalls := chunkCalls 0 101 }) := by
  have hm : ∀ j, j ≤ 100 → findMarker (chunk devBase j) = none := by
    intro j hj
    apply findMarker_eq_none
    intro i hi hp
    rw [chunk_length] at hi
    rw [chunk, flashRange_getD devBase _ 1000 i (by omega) 0] at hp
    have hz : devBase.flash (j * 1000 + i) = 0 := rfl
    rw [hz] at hp
    exact absurd hp.1 (by omega)
  exact (C3_read_calibration_loop devBase trace0 rfl).1 hm

/-- C5: on a 3694-sample frame, `subtract_background` averages the 16
samples at indices 15..30 and the 6 samples at indices 3686..3691, halves
their sum, and subtracts that background from `frame[32:3685]`, producing
exactly 3653 values. -/
theorem C5_subtract_background (frame : List Nat) (h : frame.length = 3694) :
    (subtract_background_pure frame).length = 3653 ∧
    ∀ i, i < 3653 →
      (subtract_background_pure frame).getD i 0 =
        (frame.getD (32 + i) 0 : ℚ) -
          ((∑ j ∈ Finset.range 16, (frame.getD (15 + j) 0 : ℚ)) / 16 +
           (∑ j ∈ Finset.range 6, (frame.getD (3686 + j) 0 : ℚ)) / 6) / 2 :=
  ⟨subtract_background_pure_length frame h,
   fun i hi => subtract_background_pure_getD frame h i hi⟩

/-- C5 witness: the statement applied to a constant frame. -/
theorem C5_subtract_background_witness :
    (List.replicate 3694 5).length = 3694 ∧
    (subtract_background_pure (List.replicate 3694 5)).length = 3653 :=
  ⟨by rw [List.length_replicate],
   (C5_subtract_background (List.replicate 3694 5)
     (by rw [List.length_replicate])).1⟩

/-- C8: a termination marker lying inside a single chunk — in particular
one starting exactly at a chunk boundary `N * 1000` — is detected and stops
the read, whereas a marker whose two bytes span a chunk boundary (offsets
`k*1000 + 999` and `k*1000 + 1000`) is not detected and accumulation
continues past it to the full 101 chunks. -/
theorem C8_marker_boundary (d : Device) (tr : Trace)
    (h0 : d.readFlashStatus = 0) :
    (∀ N, N ≤ 100 → (∀ j, j < N → findMarker (chunk d j) = none) →
      d.flash (N * 1000) = 255 → d.flash (N * 1000 + 1) = 255 →
      read_calibration_file d tr =
        Except.ok (flashRange d 0 (N * 1000),
          { tr with flashReadCalls :=
              tr.flashReadCalls ++ chunkCalls 0 (N + 1) })) ∧
    (∀ k, k < 100 → d.flash (k * 1000 + 999) = 255 →
      d.flash (k * 1000 + 1000) = 255 →
      (∀ j, j ≤ 100 → findMarker (chunk d j) = none) →
      read_calibration_file d tr =
        Except.ok (flashRange d 0 101000,
          { tr with flashReadCalls :=
              tr.flashReadCalls ++ chunkCalls 0 101 }) ∧
      1000 * k + 1001 ≤ (flashRange d 0 101000).length) := by
  constructor
  · intro N hN hnone hm0 hm1
    have hmark : findMarker (chunk d N) = some 0 := by
      apply findMarker_at (chunk d N) 0 (fun i hi => absurd hi (by omega))
      · rw [chunk, flashRange_getD d _ 1000 0 (by omega) 0, Nat.add_zero]
        exact hm0
      · rw [chunk, flashRange_getD d _ 1000 1 (by omega) 0]
        exact hm1
      · rw [chunk_length]
        omega
    rw [read_calibration_file_marker d tr h0 N 0 hN hnone hmark,
      List.take_zero, List.append_nil]
  · intro k hk hsp0 hsp1 hnone
    refine ⟨read_calibration_file_none d tr h0 hnone, ?_⟩
    rw [flashRange_length]
    omega

/-- C8 witness: a marker at the start of chunk 2 stops the read at 2000
bytes; a marker spanning offsets 999/1000 goes undetected and all 101
chunks are accumulated. -/
theorem C8_marker_boundary_witness :
    read_calibration_file dev8a trace0 =
      Except.ok (flashRange dev8a 0 2000,
        { trace0 with flashReadCalls := chunkCalls 0 3 }) ∧
    (read_calibration_file dev8b trace0 =
      Except.ok (flashRange dev8b 0 101000,
        { trace0 with flashReadCalls := chunkCalls 0 101 }) ∧
      1000 * 0 + 1001 ≤ (flashRange dev8b 0 101000).length) := by
  constructor
  · have hnone : ∀ j, j < 2 → findMarker (chunk dev8a j) = none := by
      intro j hj
      apply findMarker_eq_none
      intro i hi hp
      rw [chunk_length] at hi
      rw [chunk, flashRange_getD dev8a _ 1000 i (by omega) 0] at hp
      have e1 : dev8a.flash (j * 1000 + i) =
          if j * 1000 + i = 2000 ∨ j * 1000 + i = 2001 then 255 else 0 := rfl
      rw [e1, if_neg (by omega)] at hp
      exact absurd hp.1 (by omega)
    exact (C8_marker_boundary dev8a trace0 rfl).1 2 (by omega) hnone rfl rfl
  · have hnone : ∀ j, j ≤ 100 → findMarker (chunk dev8b j) = none := by
      intro j hj
      apply findMarker_eq_none
      intro i hi hp
      rw [chunk_length] at hi
      rw [chunk, flashRange_getD dev8b _ 1000 i (by omega) 0,
        flashRange_getD dev8b _ 1000 (i + 1) (by omega) 0] at hp
      obtain ⟨h1, h2⟩ := hp
      have e1 : dev8b.flash (j * 1000 + i) =
          if j * 1000 + i = 999 ∨ j * 1000 + i = 1000 then 255 else 0 := rfl
      have e2 : dev8b.flash (j * 1000 + (i + 1)) =
          if j * 1000 + (i + 1) = 999 ∨ j * 1000 + (i + 1) = 1000
          then 255 else 0 := rfl
      rw [e1] at h1
      rw [e2] at h2
      by_cases c1 : j * 1000 + i = 999 ∨ j * 1000 + i = 1000
      · by_cases c2 : j * 1000 + (i + 1) = 999 ∨ j * 1000 + (i + 1) = 1000
        · omega
        · rw [if_neg c2] at h2
          exact absurd h2 (by omega)
      · rw [if_neg c1] at h1
        exact absurd h1 (by omega)
    exact (C8_marker_boundary dev8b trace0 rfl).2 0 (by omega) rfl rfl hnone

/-- C9: `capture_frame` triggers once, then polls at a fixed 25 ms cadence
with no timeout; it returns exactly when some poll reports a nonzero frame
count (after `n` zero polls it returns after poll `n+1`, having slept
`25·(n+1)` ms), delivering a fresh 3694-sample buffer; if every available
poll reports zero it is still polling. -/
theorem C9_capture_polling (d : Device) (fuel n : Nat) (tr : Trace)
    (hn : n < fuel)
    (hz : ∀ m, m < n → d.pollFrames (tr.statusPolls + m) = 0)
    (hnz : d.pollFrames (tr.statusPolls + n) ≠ 0) :
    capture_frame d fuel tr =
      Except.ok (frameBuffer d,
        { tr with triggers := tr.triggers + 1,
                  statusPolls := tr.statusPolls + (n + 1),
                  sleptMs := tr.sleptMs + 25 * (n + 1),
                  getFrameCalls := tr.getFrameCalls ++ [(3694, 65535)] }) ∧
    (frameBuffer d).length = 3694 ∧
    (∀ fuel₂ : Nat,
      (∀ m, m < fuel₂ → d.pollFrames (tr.statusPolls + m) = 0) →
      capture_frame d fuel₂ tr = Except.error SpecError.fuelOut) := by
  refine ⟨capture_frame_spec d fuel n tr hn hz hnz, frameBuffer_length d, ?_⟩
  intro fuel₂ hall
  rw [capture_frame,
    pollLoop_exhaust d fuel₂ { tr with triggers := tr.triggers + 1 } hall]
  rfl

/-- C9 witness: a device reporting frames only from the third poll on. -/
theorem C9_capture_polling_witness :
    capture_frame dev9 4 trace0 =
      Except.ok (frameBuffer dev9,
        { trace0 with triggers := 1, statusPolls := 3, sleptMs := 75,
                      getFrameCalls := [(3694, 65535)] }) ∧
    (frameBuffer dev9).length = 3694 := by
  have h := C9_capture_polling dev9 4 2 trace0 (by omega)
    (fun m hm => by
      show (if 2 ≤ 0 + m then 7 else 0) = 0
      rw [if_neg (by omega)])
    (by decide)
  exact ⟨h.1, h.2.1⟩

/-- C10: every successful `capture_frame` allocates a 3694-element `u16`
buffer but passes `65535` as `max_len` to `getFrame` — a stated bound
exceeding the actual allocation. -/
theorem C10_getFrame_maxlen (d : Device) (fuel : Nat) (tr : Trace)
    (b : List Nat) (tr₁ : Trace)
    (h : capture_frame d fuel tr = Except.ok (b, tr₁)) :
    b.length = 3694 ∧
    tr₁.getFrameCalls = tr.getFrameCalls ++ [(3694, 65535)] ∧
    3694 < 65535 := by
  obtain ⟨hb, _, _, hg⟩ := capture_frame_ok_inv d fuel tr b tr₁ h
  exact ⟨by rw [hb, frameBuffer_length], hg, by omega⟩

/-- C10 witness: the statement applied to a concrete capture. -/
theorem C10_getFrame_maxlen_witness :
    (frameBuffer devBase).length = 3694 ∧
    ({ trace0 with triggers := 1, statusPolls := 1, sleptMs := 25,
                   getFrameCalls := [(3694, 65535)] } : Trace).getFrameCalls =
      trace0.getFrameCalls ++ [(3694, 65535)] ∧
    3694 < 65535 :=
  C10_getFrame_maxlen devBase 1 trace0 (frameBuffer devBase)
    { trace0 with triggers := 1, statusPolls := 1, sleptMs := 25,
                  getFrameCalls := [(3694, 65535)] } rfl

/-- C6: with calibration loaded, `get_calibrated_spectrum` performs exactly
one hardware trigger, and each output intensity is
`corrected[i] / norm_coef[i] * power_coef[i] / (exposure_time * bck_aT)`
where `corrected` is the background-subtracted captured frame. -/
theorem C6_calibration_formula (d : Device) (s : Session) (fuel n : Nat)
    (tr : Trace) (wl nc pc : List ℚ) (bck : ℚ)
    (hld : s.calibLoaded = true)
    (hwl : s.wavelength = some wl) (hnc : s.norm_coef = some nc)
    (hpc : s.power_coef = some pc) (hbk : s.bck_aT = some bck)
    (hncl : nc.length = 3653) (hpcl : pc.length = 3653)
    (hn : n < fuel)
    (hz : ∀ m, m < n → d.pollFrames (tr.statusPolls + m) = 0)
    (hnz : d.pollFrames (tr.statusPolls + n) ≠ 0) :
    (Except.isOk (get_calibrated_spectrum d s fuel tr)) = true ∧
    calTriggers (get_calibrated_spectrum d s fuel tr) = tr.triggers + 1 ∧
    ∀ i, i < 3653 →
      (calIntensity (get_calibrated_spectrum d s fuel tr)).getD i 0 =
        (subtract_background_pure (frameBuffer d)).getD i 0 / nc.getD i 0 *
          pc.getD i 0 / ((s.exposure_time : ℚ) * bck) := by
  have hsub : (subtract_background_pure (frameBuffer d)).length = 3653 :=
    subtract_background_pure_length _ (frameBuffer_length d)
  rw [get_calibrated_spectrum_spec d s fuel n tr wl nc pc bck hld
    hwl hnc hpc hbk hncl hpcl hn hz hnz]
  refine ⟨rfl, rfl, ?_⟩
  intro i hi
  rw [calIntensity]
  rw [getD_zipWith _ _ _ i
    (by rw [List.length_zipWith, hsub, hncl]; omega)
    (by rw [List.length_map, hpcl]; omega)]
  rw [getD_zipWith _ _ _ i (by omega) (by omega)]
  rw [getD_map_of_lt _ _ _ (by rw [hpcl]; omega)]
  ring

/-- C6 witness: a uniform frame of 1000s with `norm_coef` all 2,
`power_coef` all 4, exposure 500 and `bck_aT = 1` yields one trigger and a
zero calibrated intensity. -/
theorem C6_calibration_formula_witness :
    (Except.isOk (get_calibrated_spectrum scenDev scenSession 1 trace0))
      = true ∧
    calTriggers (get_calibrated_spectrum scenDev scenSession 1 trace0) = 1 ∧
    (calIntensity (get_calibrated_spectrum scenDev scenSession 1 trace0)).getD
      5 0 = 0 := by
  have h := C6_calibration_formula scenDev scenSession 1 0 trace0
    (List.replicate 3653 7) (List.replicate 3653 2) (List.replicate 3653 4) 1
    rfl rfl rfl rfl rfl (by rw [List.length_replicate])
    (by rw [List.length_replicate]) (by omega)
    (fun m hm => absurd hm (by omega)) (by decide)
  refine ⟨h.1, h.2.1, ?_⟩
  rw [h.2.2 5 (by omega)]
  rw [frameBuffer_const 1000 scenDev rfl]
  rw [subtract_background_pure_getD (List.replicate 3694 1000)
    (by rw [List.length_replicate]) 5 (by omega)]
  have e1 : ∀ k : Nat, k < 3694 →
      (((List.replicate 3694 1000).getD k 0 : Nat) : ℚ) = 1000 :=
    fun k hk => by
      rw [getD_replicate (1000 : Nat) 0 hk]
      norm_num
  rw [e1 (32 + 5) (by omega)]
  rw [Finset.sum_congr rfl
    (fun j hj => e1 (15 + j) (by have := Finset.mem_range.mp hj; omega))]
  rw [Finset.sum_congr rfl
    (fun j hj => e1 (3686 + j) (by have := Finset.mem_range.mp hj; omega))]
  rw [getD_replicate (2 : ℚ) 0 (show (5 : Nat) < 3653 by omega)]
  rw [getD_replicate (4 : ℚ) 0 (show (5 : Nat) < 3653 by omega)]
  have he : ((scenSession.exposure_time : Nat) : ℚ) = 500 := by
    norm_num [scenSession, session0]
  rw [he, Finset.sum_const, Finset.sum_const, Finset.card_range,
    Finset.card_range]
  norm_num

/-- C7: calibration is memoized: a load with the cache flag set returns
immediately with the session and trace untouched; a `get_calibrated_spectrum`
call on a loaded session (on any device, i.e. even with changed flash
contents) leaves the session unchanged and performs no flash read; and any
successful load sets the cache flag. -/
theorem C7_memoization :
    (∀ (d : Device) (s : Session) (tr : Trace), s.calibLoaded = true →
      load_calibration_data d s tr = Except.ok (s, tr)) ∧
    (∀ (d : Device) (s : Session) (fuel : Nat) (tr : Trace)
        (r : List ℚ × List ℚ) (s₁ : Session) (tr₁ : Trace),
      s.calibLoaded = true →
      get_calibrated_spectrum d s fuel tr = Except.ok (r, s₁, tr₁) →
      s₁ = s ∧ tr₁.flashReadCalls = tr.flashReadCalls) ∧
    (∀ (d : Device) (s : Session) (tr : Trace) (s₁ : Session) (tr₁ : Trace),
      load_calibration_data d s tr = Except.ok (s₁, tr₁) →
      s₁.calibLoaded = true) :=
  ⟨load_calibration_data_cached,
   fun d s fuel tr r s₁ tr₁ hld h =>
     get_calibrated_spectrum_loaded_inv d s fuel tr r s₁ tr₁ hld h,
   fun d s tr s₁ tr₁ h => load_calibration_data_ok_loaded d s tr s₁ tr₁ h⟩

/-- C7 witness: the memoization statement applied to a loaded session and a
concrete second pipeline call. -/
theorem C7_memoization_witness :
    load_calibration_data devBase scenSession trace0 =
      Except.ok (scenSession, trace0) ∧
    scenSession.calibLoaded = true ∧
    (scenSession = scenSession ∧
      ({ trace0 with triggers := 1, statusPolls := 1, sleptMs := 25,
                     getFrameCalls := [(3694, 65535)] } : Trace).flashReadCalls
        = trace0.flashReadCalls) := by
  refine ⟨C7_memoization.1 devBase scenSession trace0 rfl,
    C7_memoization.2.2 devBase scenSession trace0 scenSession trace0
      (C7_memoization.1 devBase scenSession trace0 rfl), ?_⟩
  have hok := get_calibrated_spectrum_spec scenDev scenSession 1 0 trace0
    (List.replicate 3653 7) (List.replicate 3653 2) (List.replicate 3653 4) 1
    rfl rfl rfl rfl rfl (by rw [List.length_replicate])
    (by rw [List.length_replicate]) (by omega)
    (fun m hm => absurd hm (by omega)) (by decide)
  exact C7_memoization.2.1 scenDev scenSession 1 trace0 _ _ _ rfl hok

set_option maxRecDepth 400000 in
/-- C2 (counterexample): a 20-line calibration blob is parsed WITHOUT any
error and yields coefficient arrays far shorter than 3653 (`wavelength` has
8 entries, `norm_coef` and `power_coef` are empty): the claimed ≥10973-line
validation does not exist in the code. -/
theorem C2_counterexample :
    load_calibration_data dev20 session0 trace0 =
      Except.ok ({ session0 with
          bck_aT := some 1
          wavelength := some (List.replicate 8 1)
          norm_coef := some []
          power_coef := some []
          calibLoaded := true },
        { trace0 with flashReadCalls := [(0, 1000)] }) ∧
    (List.replicate 8 (1 : ℚ)).length < 3653 ∧
    ([] : List ℚ).length < 3653 := by
  refine ⟨by rfl, by norm_num, by norm_num⟩

/-- C2 (amended): a blob decoding to fewer than 2 lines fails (at the
`bck_aT` parse) before any coefficient slicing; a blob with 2..10972 lines
whose relevant entries parse does NOT fail — slicing clamps, no indexing
error occurs, and the call returns `power_coef` strictly shorter than 3653
entries. -/
theorem C2_short_blob (d : Device) (s : Session) (tr : Trace)
    (blob text : List Nat) (tr₁ : Trace)
    (hs : s.calibLoaded = false)
    (hread : read_calibration_file d tr = Except.ok (blob, tr₁))
    (hdec : decodeUtf8Ascii blob = some text) :
    ((splitlines text).length < 2 →
      load_calibration_data d s tr = Except.error SpecError.valueError) ∧
    (∀ (l₁ : List Nat) (bck : ℚ) (wl nc pc : List ℚ),
      (splitlines text).length < 10973 →
      (splitlines text)[1]? = some l₁ →
      parseFloat l₁ = some bck →
      parseArray (pySlice (splitlines text) 12 3665) = some wl →
      parseArray (pySlice (splitlines text) 3666 7319) = some nc →
      parseArray (pySlice (splitlines text) 7320 10973) = some pc →
      load_calibration_data d s tr =
        Except.ok ({ s with bck_aT := some bck, wavelength := some wl,
                            norm_coef := some nc, power_coef := some pc,
                            calibLoaded := true }, tr₁) ∧
      pc.length < 3653) := by
  constructor
  · exact fun hlen =>
      load_calibration_data_short d s tr blob text tr₁ hs hread hdec hlen
  · intro l₁ bck wl nc pc hlen h1 hbck hwl hnc hpc
    refine ⟨load_calibration_data_parses d s tr blob text l₁ tr₁ bck wl nc pc
      hs hread hdec h1 hbck hwl hnc hpc, ?_⟩
    have hl := parseArray_length hpc
    rw [pySlice_length] at hl
    omega

set_option maxRecDepth 400000 in
/-- C2 witness: the amended statement applied to the 20-line device. -/
theorem C2_short_blob_witness :
    load_calibration_data dev20 session0 trace0 =
      Except.ok ({ session0 with
          bck_aT := some 1
          wavelength := some (List.replicate 8 1)
          norm_coef := some []
          power_coef := some []
          calibLoaded := true },
        { trace0 with flashReadCalls := [(0, 1000)] }) ∧
    ([] : List ℚ).length < 3653 := by
  have h := (C2_short_blob dev20 session0 trace0 (joinLines lines20)
      (joinLines lines20) { trace0 with flashReadCalls := [(0, 1000)] }
      rfl (by rfl) (by rfl)).2
    [49] 1 (List.replicate 8 1) [] []
    (by decide)
    (by rfl) rfl (by rfl) (by rfl) (by rfl)
  exact h

/-- C4: a well-formed synthetic blob — 10973 ASCII lines joined by
newlines and terminated by `0xFF 0xFF` lying within the scan window —
parses back to exactly the values its lines denote: `bck_aT` from line 1,
and the three coefficient slices, each of length exactly 3653. -/
theorem C4_roundtrip (d : Device) (s : Session) (tr : Trace)
    (lines : List (List Nat)) (l₁ : List Nat) (bck : ℚ) (wl nc pc : List ℚ)
    (h0 : d.readFlashStatus = 0)
    (hflash : ∀ i, d.flash i = (mkBlob lines).getD i 0)
    (hs : s.calibLoaded = false)
    (hlen : lines.length = 10973)
    (hchars : ∀ l ∈ lines, ∀ c ∈ l, c < 128 ∧ isLineBreak c = false)
    (hT1 : (joinLines lines).length % 1000 ≤ 998)
    (hT2 : (joinLines lines).length ≤ 100998)
    (h1 : lines[1]? = some l₁)
    (hbck : parseFloat l₁ = some bck)
    (hwl : parseArray (pySlice lines 12 3665) = some wl)
    (hnc : parseArray (pySlice lines 3666 7319) = some nc)
    (hpc : parseArray (pySlice lines 7320 10973) = some pc) :
    load_calibration_data d s tr =
      Except.ok ({ s with bck_aT := some bck, wavelength := some wl,
                          norm_coef := some nc, power_coef := some pc,
                          calibLoaded := true },
        { tr with flashReadCalls := tr.flashReadCalls ++
            chunkCalls 0 ((joinLines lines).length / 1000 + 1) }) ∧
    wl.length = 3653 ∧ nc.length = 3653 ∧ pc.length = 3653 := by
  have hsplit : splitlines (joinLines lines) = lines :=
    splitlines_joinLines lines (fun l hl c hc => (hchars l hl c hc).2)
  have hread := read_calibration_file_mkBlob d tr lines h0 hflash
    (fun l hl c hc => (hchars l hl c hc).1) hT1 hT2
  have hdec : decodeUtf8Ascii (joinLines lines) = some (joinLines lines) := by
    apply decodeUtf8Ascii_of_ascii
    intro c hc
    rcases joinLines_mem hc with ⟨l, hl, hcl⟩ | rfl
    · exact (hchars l hl c hcl).1
    · omega
  refine ⟨load_calibration_data_parses d s tr (joinLines lines)
      (joinLines lines) l₁ _ bck wl nc pc hs hread hdec
      (by rw [hsplit]; exact h1) hbck (by rw [hsplit]; exact hwl)
      (by rw [hsplit]; exact hnc) (by rw [hsplit]; exact hpc), ?_, ?_, ?_⟩
  · have hw := parseArray_length hwl
    rw [pySlice_length, hlen] at hw
    omega
  · have hw := parseArray_length hnc
    rw [pySlice_length, hlen] at hw
    omega
  · have hw := parseArray_length hpc
    rw [pySlice_length, hlen] at hw
    omega

set_option maxRecDepth 400000 in
/-- C4 witness: the round-trip applied to 10973 lines of `1`. -/
theorem C4_roundtrip_witness :
    load_calibration_data dev4 session0 trace0 =
      Except.ok ({ session0 with
          bck_aT := some 1
          wavelength := some (List.replicate 3653 1)
          norm_coef := some (List.replicate 3653 1)
          power_coef := some (List.replicate 3653 1)
          calibLoaded := true },
        { trace0 with flashReadCalls :=
            trace0.flashReadCalls ++
              chunkCalls 0 ((joinLines linesC4).length / 1000 + 1) }) ∧
    (List.replicate 3653 (1 : ℚ)).length = 3653 := by
  have hrep : linesC4 = List.replicate 10973 [49] := rfl
  have hchars : ∀ l ∈ linesC4, ∀ c ∈ l, c < 128 ∧ isLineBreak c = false := by
    intro l hl c hc
    rw [hrep] at hl
    have hl49 : l = [49] := List.eq_of_mem_replicate hl
    subst hl49
    have hc49 : c = 49 := by simpa using hc
    subst hc49
    exact ⟨by omega, rfl⟩
  have hT : (joinLines linesC4).length = 21946 := by
    rw [hrep, joinLines_replicate_length]
    norm_num
  have h := C4_roundtrip dev4 session0 trace0 linesC4 [49] 1
    (List.replicate 3653 1) (List.replicate 3653 1) (List.replicate 3653 1)
    rfl (fun i => rfl) rfl
    (by rw [hrep, List.length_replicate])
    hchars
    (by rw [hT]; norm_num)
    (by rw [hT]; omega)
    (by rw [hrep, replicate_getElem? 10973 1 [49] (by omega)])
    rfl
    (by rw [hrep, pySlice_replicate,
          show (min (3665 - 12) (10973 - 12) : Nat) = 3653 by norm_num]
        exact parseArray_replicate [49] 1 rfl 3653)
    (by rw [hrep, pySlice_replicate,
          show (min (7319 - 3666) (10973 - 3666) : Nat) = 3653 by norm_num]
        exact parseArray_replicate [49] 1 rfl 3653)
    (by rw [hrep, pySlice_replicate,
          show (min (10973 - 7320) (10973 - 7320) : Nat) = 3653 by norm_num]
        exact parseArray_replicate [49] 1 rfl 3653)
  exact ⟨h.1, h.2.1⟩

end ASQE
